import Mathlib

/-!
Verification of the invoicing ledger engine.

This file is a shallow embedding of the ledger state engine of the
`invoicing` CLI (Rust sources under `src/`): the entry model and derived
payment status (`src/config/state.rs`), the legacy `paid`-flag migration
performed by the custom deserializer (`src/config/state.rs`), the invoice
reference resolver and the add/remove-payment operations (`src/main.rs`),
and the generate / regenerate lifecycle operations
(`src/invoice/generator.rs`).

Modelling conventions:
* Rust `f64` money values are embedded as `Rat` with exact arithmetic;
  every literal appearing in the claims (`0.001`, totals, rates) is an
  exact rational, so the comparisons performed by the code are preserved.
* `chrono::NaiveDate` is opaque to the ledger logic (dates are stored and
  compared for nothing but equality here), so it is embedded as `Nat`.
* File-system persistence (`load_state`/`save_state`) is embedded as
  explicit state passing: an operation that saves returns `Except.ok`
  with the new ledger, and an operation that fails returns `Except.error`
  before any state is produced, mirroring the code, where every error
  return happens before the single `save_state` call.
* External collaborators (client/item catalogs, the `str::parse::<f64>`
  quantity parser, PDF rendering) are parameters: catalogs as lookup
  functions, the float parser as a `String → Option Rat` argument, and
  PDF generation omitted because it touches no ledger state.
-/

/-- Dates are opaque to the ledger engine; embedded as an abstract tag. -/
abbrev NaiveDate := Nat

/-- The `Payment` from src/config/state.rs. -/
structure Payment where
  amount : Rat
  date : NaiveDate
deriving DecidableEq, Repr

/-- The `PaymentStatus` from src/config/state.rs. -/
inductive PaymentStatus where
  | Unpaid
  | Partial
  | Paid
deriving DecidableEq, Repr

/-- The `HistoryEntry` from src/config/state.rs. -/
structure HistoryEntry where
  number : String
  client : String
  date : NaiveDate
  total : Rat
  file : String
  payments : List Payment
  items : List String
deriving DecidableEq, Repr

/-- The `Counter` from src/config/state.rs. -/
structure Counter where
  last_number : Nat
  last_year : Nat
deriving DecidableEq, Repr

/-- The `State` from src/config/state.rs: the whole persisted ledger. -/
structure State where
  counter : Counter
  history : List HistoryEntry
deriving DecidableEq, Repr

/-- The `HistoryEntry::paid_amount` (state.rs line 68): sum of all recorded
payments. -/
def HistoryEntry.paid_amount (e : HistoryEntry) : Rat :=
  (e.payments.map (fun p => p.amount)).sum

/-- The `HistoryEntry::outstanding` (state.rs line 73): remaining balance. -/
def HistoryEntry.outstanding (e : HistoryEntry) : Rat :=
  e.total - e.paid_amount

/-- The `HistoryEntry::status` (state.rs lines 78-87): derived payment
status; the `paid <= 0.0` test comes first, then `paid >= total`. -/
def HistoryEntry.status (e : HistoryEntry) : PaymentStatus :=
  let paid := e.paid_amount
  if paid ≤ 0 then PaymentStatus.Unpaid
  else if e.total ≤ paid then PaymentStatus.Paid
  else PaymentStatus.Partial

/-- The intermediate `Raw` shape of the custom deserializer
(state.rs lines 98-111): accepts both the legacy `paid : Option<bool>`
field and the new `payments` list (each defaulting when absent). -/
structure RawHistoryEntry where
  number : String
  client : String
  date : NaiveDate
  total : Rat
  file : String
  paid : Option Bool
  payments : List Payment
  items : List String
deriving DecidableEq, Repr

/-- The migration performed by `HistoryEntry::deserialize`
(state.rs lines 113-137): if the stored payments list is empty and the
legacy flag is `Some(true)`, synthesize one full payment dated with the
issue date; a non-empty payments list is used as-is. -/
def migrate_entry (raw : RawHistoryEntry) : HistoryEntry :=
  let payments :=
    if raw.payments.isEmpty then
      match raw.paid with
      | some true => [{ amount := raw.total, date := raw.date : Payment }]
      | _ => []
    else raw.payments
  { number := raw.number
    client := raw.client
    date := raw.date
    total := raw.total
    file := raw.file
    payments := payments
    items := raw.items }

/-- Re-serialization of a migrated entry: `HistoryEntry` derives `Serialize`
with no `paid` field (state.rs lines 52-64), so reading it back yields a
`Raw` value with `paid = None` (the serde default). -/
def entry_to_raw (e : HistoryEntry) : RawHistoryEntry :=
  { number := e.number
    client := e.client
    date := e.date
    total := e.total
    file := e.file
    paid := none
    payments := e.payments
    items := e.items }

/-- The `Item` from src/config/item.rs. -/
structure Item where
  description : String
  rate : Rat
  unit : String
deriving DecidableEq, Repr

/-- The `Client` from src/config/client.rs; only its existence in the catalog
matters to the ledger engine, the displayed fields are opaque here. -/
structure Client where
  name : String
deriving DecidableEq, Repr

/-- The `InvoiceError` from src/error.rs, restricted to the variants the
ledger engine can produce (the I/O and config-parsing variants belong to
the excluded collaborators).  `PdfGeneration` is kept because
`cmd_add_payment` reuses it for an unparsable `--date` value. -/
inductive InvoiceError where
  | ClientNotFound (client : String)
  | ItemNotFound (item : String)
  | InvalidQuantity (item : String) (qty : String) (reason : String)
  | InvalidItemFormat (input : String)
  | NoItems
  | PdfGeneration (msg : String)
  | InvoiceNotFound (number : String)
  | InvalidInvoiceIndex (reference : String)
  | NoStoredItems (number : String)
  | OverPayment (invoice : String) (max : Rat)
  | NoPayments (number : String)
  | InvalidPaymentIndex (invoice : String) (index : Nat) (count : Nat)
  | InvalidPaymentAmount
deriving DecidableEq, Repr

/-- Model of Rust `str::parse::<usize>()` as used by
`resolve_invoice_number` (main.rs line 614): an optional leading `+`,
then one or more ASCII digits, rejecting values that overflow 64-bit
`usize`; anything else fails to parse. -/
def parse_usize (s : String) : Option Nat :=
  let cs :=
    match s.data with
    | '+' :: rest => rest
    | cs => cs
  if cs.isEmpty then none
  else if cs.all (fun c => c.isDigit) then
    let n := cs.foldl (fun acc c => acc * 10 + (c.toNat - 48)) 0
    if n < 2 ^ 64 then some n else none
  else none

/-- Models `state.history.iter().find(|e| e.number == number)`: the first
entry carrying the given invoice number. -/
def find_entry : List HistoryEntry → String → Option HistoryEntry
  | [], _ => none
  | e :: rest, number => if e.number = number then some e else find_entry rest number

/-- Models `state.history.iter_mut().find(|e| e.number == number)`
followed by a mutation of the found entry: rewrites the first matching
entry with `f`, leaving the list unchanged when no entry matches. -/
def update_entry : List HistoryEntry → String → (HistoryEntry → HistoryEntry) → List HistoryEntry
  | [], _, _ => []
  | e :: rest, number, f =>
      if e.number = number then f e :: rest
      else e :: update_entry rest number f

/-- The `resolve_invoice_number` (main.rs lines 610-632): a reference that
parses as a `usize` is a 1-based index into the newest-first display
order (`0` and out-of-range indices are `InvalidInvoiceIndex`); any other
reference is a literal invoice number (`InvoiceNotFound` when absent). -/
def resolve_invoice_number (state : State) (reference : String) : Except InvoiceError String :=
  match parse_usize reference with
  | some idx =>
      if idx = 0 then Except.error (InvoiceError.InvalidInvoiceIndex reference)
      else
        let invoices := state.history.reverse
        if invoices.length < idx then Except.error (InvoiceError.InvalidInvoiceIndex reference)
        else
          match invoices[idx - 1]? with
          | some e => Except.ok e.number
          -- unreachable: `idx - 1 < invoices.length` holds in this branch
          | none => Except.error (InvoiceError.InvalidInvoiceIndex reference)
  | none =>
      if state.history.any (fun e => e.number = reference) then Except.ok reference
      else Except.error (InvoiceError.InvoiceNotFound reference)

/-- The `cmd_add_payment` (main.rs lines 770-835), for an already-resolved
invoice number: rejects `amount <= 0.0`, then rejects
`amount > outstanding + 0.001` carrying the outstanding balance, and
otherwise pushes `Payment { amount, date }` onto the found entry and
saves.  Every error is returned before the `save_state` call, so a
failure leaves the durable ledger untouched. -/
def cmd_add_payment (state : State) (invoice_number : String) (amount : Rat)
    (date : NaiveDate) : Except InvoiceError State :=
  if amount ≤ 0 then Except.error InvoiceError.InvalidPaymentAmount
  else
    match find_entry state.history invoice_number with
    | none => Except.error (InvoiceError.InvoiceNotFound invoice_number)
    | some entry =>
        let remaining := entry.outstanding
        if remaining + 1 / 1000 < amount then
          Except.error (InvoiceError.OverPayment invoice_number remaining)
        else
          Except.ok { state with
            history := update_entry state.history invoice_number
              (fun e => { e with payments := e.payments ++ [{ amount := amount, date := date }] }) }

/-- The `cmd_remove_payment` (main.rs lines 838-887), for an already-resolved
invoice number: `NoPayments` when the entry has none; an explicit 1-based
index of `0` or beyond the payment count is `InvalidPaymentIndex`
carrying that count; otherwise `Vec::remove` deletes the chosen element
(the last one by default) and the ledger is saved. -/
def cmd_remove_payment (state : State) (invoice_number : String)
    (index : Option Nat) : Except InvoiceError State :=
  match find_entry state.history invoice_number with
  | none => Except.error (InvoiceError.InvoiceNotFound invoice_number)
  | some entry =>
      if entry.payments.isEmpty then Except.error (InvoiceError.NoPayments invoice_number)
      else
        match index with
        | some i =>
            if i = 0 ∨ entry.payments.length < i then
              Except.error (InvoiceError.InvalidPaymentIndex invoice_number i entry.payments.length)
            else
              Except.ok { state with
                history := update_entry state.history invoice_number
                  (fun e => { e with payments := e.payments.eraseIdx (i - 1) }) }
        | none =>
            -- `remove_idx` is computed from the found entry before the
            -- removal, exactly as in the source
            Except.ok { state with
              history := update_entry state.history invoice_number
                (fun e => { e with payments := e.payments.eraseIdx (entry.payments.length - 1) }) }

/-- The `InvoiceLineItem` from src/invoice/generator.rs. -/
structure InvoiceLineItem where
  description : String
  quantity : Rat
  unit : String
  rate : Rat
  amount : Rat
deriving DecidableEq, Repr

/-- Model of Rust `input.split(':')` (generator.rs line 42): the list of
`:`-separated fragments, with empty fragments preserved. -/
def split_colon : List Char → List (List Char)
  | [] => [[]]
  | c :: rest =>
      if c = ':' then [] :: split_colon rest
      else
        match split_colon rest with
        | [] => [[c]]
        | group :: groups => (c :: group) :: groups

/-- The `parse_item_input` (generator.rs lines 41-65), parameterized by the
external float parser `pf` standing for `str::parse::<f64>()`: splits on
`:` into exactly two parts, parses the quantity, and rejects a quantity
that is not greater than zero. -/
def parse_item_input (pf : String → Option Rat) (input : String) :
    Except InvoiceError (String × Rat) :=
  match (split_colon input.data).map String.mk with
  | [item_id, qty_str] =>
      match pf qty_str with
      | none => Except.error (InvoiceError.InvalidQuantity item_id qty_str "must be a number")
      | some quantity =>
          if quantity ≤ 0 then
            Except.error (InvoiceError.InvalidQuantity item_id qty_str "must be greater than 0")
          else Except.ok (item_id, quantity)
  | _ => Except.error (InvoiceError.InvalidItemFormat input)

/-- The item-parsing loop shared verbatim by `generate_invoice`
(generator.rs lines 229-245) and `regenerate_invoice` (lines 118-134):
parses each `item:quantity` token, looks the item up in the catalog, and
records a line item with `amount = rate * quantity`. -/
def build_line_items (items_catalog : String → Option Item) (pf : String → Option Rat) :
    List String → Except InvoiceError (List InvoiceLineItem)
  | [] => Except.ok []
  | input :: rest => do
      let (item_id, quantity) ← parse_item_input pf input
      match items_catalog item_id with
      | none => Except.error (InvoiceError.ItemNotFound item_id)
      | some item => do
          let amount := item.rate * quantity
          let line_items ← build_line_items items_catalog pf rest
          Except.ok ({ description := item.description
                       quantity := quantity
                       unit := item.unit
                       rate := item.rate
                       amount := amount : InvoiceLineItem } :: line_items)

/-- The totals computation of generator.rs lines 247-250 (and 136-139):
`subtotal` is the sum of line amounts, `tax_amount = subtotal * tax_rate`,
and the stored total is `subtotal + tax_amount`, with no rounding. -/
def compute_total (line_items : List InvoiceLineItem) (tax_rate : Rat) : Rat :=
  let subtotal := (line_items.map (fun i => i.amount)).sum
  let tax_amount := subtotal * tax_rate
  subtotal + tax_amount

/-- Zero-padding used by Rust's `format!("\x7b:04\x7d", seq)` and
friends: decimal digits left-padded with `0` to the given width. -/
def pad_zero (width : Nat) (n : Nat) : String :=
  let digits := toString n
  String.mk (List.replicate (width - digits.length) '0') ++ digits

/-- Model of Rust `str::replace`: replaces every non-overlapping
occurrence of a non-empty pattern, scanning left to right.  The `fuel`
argument (instantiated with the source length) only makes the recursion
structural; each step consumes at least one character, so the fuel never
runs out on the calls below. -/
def replace_chars (pattern replacement : List Char) : Nat → List Char → List Char
  | _, [] => []
  | 0, l => l
  | fuel + 1, c :: rest =>
      if pattern ≠ [] ∧ pattern.isPrefixOf (c :: rest) then
        replacement ++ replace_chars pattern replacement fuel ((c :: rest).drop pattern.length)
      else c :: replace_chars pattern replacement fuel rest

/-- Model of Rust `str::replace` on strings. -/
def string_replace (s pattern replacement : String) : String :=
  String.mk (replace_chars pattern.data replacement.data s.data.length s.data)

/-- The `format_invoice_number` (generator.rs lines 68-74, duplicated at
main.rs lines 670-676): token substitution on the number template, in the
source's replacement order. -/
def format_invoice_number (format : String) (year : Nat) (seq : Nat) : String :=
  string_replace
    (string_replace
      (string_replace
        (string_replace format "\x7byear\x7d" (toString year))
        "\x7bseq:04\x7d" (pad_zero 4 seq))
      "\x7bseq:05\x7d" (pad_zero 5 seq))
    "\x7bseq:03\x7d" (pad_zero 3 seq)

/-- The sequence allocation of `generate_invoice` (generator.rs lines
256-260, duplicated at main.rs lines 474-478): continue the counter
within the same calendar year, reset to 1 on a year change. -/
def next_seq (counter : Counter) (current_year : Nat) : Nat :=
  if counter.last_year = current_year then counter.last_number + 1 else 1

/-- The counter commit of `generate_invoice` (generator.rs lines
300-301): the allocated sequence number and the current year are stored
back into the counter together with the new entry. -/
def commit_seq (counter : Counter) (current_year : Nat) : Counter :=
  { last_number := next_seq counter current_year, last_year := current_year }

/-- A run of successive `generate_invoice` counter interactions: for each
calendar year in the list, allocate `next_seq` and commit it, returning
every `(year, seq)` pair allocated along the way. -/
def alloc_run (counter : Counter) : List Nat → List (Nat × Nat)
  | [] => []
  | y :: ys => (y, next_seq counter y) :: alloc_run (commit_seq counter y) ys

/-- The `generate_invoice` (generator.rs lines 208-321) restricted to its
ledger effect: validate the client, build the line items, compute the
unrounded total, allocate the next sequence number, and append the new
entry while committing the counter; the new entry starts with no
payments (the source writes the legacy `paid: false`, which the
deserializer of state.rs turns into the empty payments list). -/
def generate_invoice (clients : String → Option Client)
    (items_catalog : String → Option Item) (pf : String → Option Rat)
    (tax_rate : Rat) (number_format : String) (current_year : Nat)
    (today : NaiveDate) (state : State) (client_id : String)
    (items_input : List String) : Except InvoiceError State :=
  match clients client_id with
  | none => Except.error (InvoiceError.ClientNotFound client_id)
  | some _ => do
      let line_items ← build_line_items items_catalog pf items_input
      let total := compute_total line_items tax_rate
      let seq := next_seq state.counter current_year
      let invoice_number := format_invoice_number number_format current_year seq
      let pdf_filename := invoice_number ++ ".pdf"
      Except.ok
        { counter := { last_number := seq, last_year := current_year }
          history := state.history ++
            [{ number := invoice_number
               client := client_id
               date := today
               total := total
               file := pdf_filename
               payments := []
               items := items_input }] }

/-- The `regenerate_invoice` (generator.rs lines 77-184) restricted to its
ledger effect: locate the entry by canonical number; use the supplied
items or fall back to the stored ones (`NoStoredItems` when that list is
empty); validate the client and rebuild the line items; recompute the
unrounded total; and only when new items were supplied, replace the
entry's `items` and `total` in place and save — otherwise the ledger is
returned unchanged. -/
def regenerate_invoice (clients : String → Option Client)
    (items_catalog : String → Option Item) (pf : String → Option Rat)
    (tax_rate : Rat) (state : State) (invoice_number : String)
    (new_items : Option (List String)) : Except InvoiceError State :=
  match find_entry state.history invoice_number with
  | none => Except.error (InvoiceError.InvoiceNotFound invoice_number)
  | some entry => do
      let client_id := entry.client
      let items_to_use ←
        match new_items with
        | some items => Except.ok items
        | none =>
            if entry.items.isEmpty then
              Except.error (InvoiceError.NoStoredItems invoice_number)
            else Except.ok entry.items
      match clients client_id with
      | none => Except.error (InvoiceError.ClientNotFound client_id)
      | some _ => do
          let line_items ← build_line_items items_catalog pf items_to_use
          let total := compute_total line_items tax_rate
          match new_items with
          | some _ =>
              Except.ok { state with
                history := update_entry state.history invoice_number
                  (fun e => { e with items := items_to_use, total := total }) }
          | none => Except.ok state

/-- Rust `f64::round` (main.rs line 299): round half away from zero. -/
def rust_round (x : Rat) : Int :=
  if 0 ≤ x then ⌊x + 1 / 2⌋ else ⌈x - 1 / 2⌉

/-- The `format_grouped_int` (main.rs lines 304-321): decimal digits with a
`,` inserted every three digits from the right, preserving a leading
sign. -/
def format_grouped_int (value : Int) : String :=
  let negative := value < 0
  let digits := (toString value.natAbs).data
  let out := (digits.reverse.enum).foldl
    (fun acc (p : Nat × Char) =>
      if 0 < p.1 ∧ p.1 % 3 = 0 then acc ++ [','] ++ [p.2] else acc ++ [p.2])
    ([] : List Char)
  let grouped := String.mk out.reverse
  if negative then "-" ++ grouped else grouped

/-- The `format_whole_money` (main.rs lines 298-302): round the stored value
to the nearest whole currency unit, group its digits, and right-align to
width 6 after the currency symbol (Rust `format!("\x7b\x7d\x7b:>6\x7d", ..)`). -/
def format_whole_money (value : Rat) (currency_symbol : String) : String :=
  let rounded := rust_round value
  let grouped := format_grouped_int rounded
  currency_symbol ++ String.mk (List.replicate (6 - grouped.length) ' ') ++ grouped

/-- Modelled from the spec: `round_to_cents` — "half-up rounding to 2
fractional digits" (spec section 4.1).  The source under src/ has no such
function; this definition exists only to compare the spec's rounding
policy with the totals the code actually stores. -/
def round_to_cents_spec (x : Rat) : Rat :=
  (⌊x * 100 + 1 / 2⌋ : Int) / 100

/-! ### Helper lemmas: entry model and list surgery -/

theorem paid_amount_append (e : HistoryEntry) (p : Payment) :
    HistoryEntry.paid_amount { e with payments := e.payments ++ [p] } =
      e.paid_amount + p.amount := by
  simp [HistoryEntry.paid_amount]

theorem find_entry_eq_some (l : List HistoryEntry) (n : String) (e : HistoryEntry)
    (h : find_entry l n = some e) :
    ∃ l1 l2, l = l1 ++ e :: l2 ∧ (∀ x ∈ l1, x.number ≠ n) ∧ e.number = n ∧
      ∀ f, update_entry l n f = l1 ++ f e :: l2 := by
  induction l with
  | nil => simp [find_entry] at h
  | cons a rest ih =>
      by_cases ha : a.number = n
      · have hae : a = e := by simpa [find_entry, ha] using h
        subst hae
        exact ⟨[], rest, rfl, by simp, ha, fun f => by simp [update_entry, ha]⟩
      · have h' : find_entry rest n = some e := by simpa [find_entry, ha] using h
        obtain ⟨l1, l2, hl, hl1, hen, hupd⟩ := ih h'
        refine ⟨a :: l1, l2, by simp [hl], ?_, hen, fun f => by
          simp [update_entry, ha, hupd f]⟩
        intro x hx
        rcases List.mem_cons.mp hx with rfl | hx
        · exact ha
        · exact hl1 x hx

theorem update_entry_of_find_none (l : List HistoryEntry) (n : String)
    (f : HistoryEntry → HistoryEntry) (h : find_entry l n = none) :
    update_entry l n f = l := by
  induction l with
  | nil => simp [update_entry]
  | cons a rest ih =>
      by_cases ha : a.number = n
      · simp [find_entry, ha] at h
      · simp only [find_entry, ha, if_neg ha] at h
        simp [update_entry, ha, ih h]

theorem sum_map_amount_eraseIdx_le (ps : List Payment) (i : Nat)
    (hpos : ∀ p ∈ ps, 0 ≤ p.amount) :
    ((ps.eraseIdx i).map (fun p => p.amount)).sum ≤ (ps.map (fun p => p.amount)).sum := by
  induction ps generalizing i with
  | nil => simp
  | cons p rest ih =>
      cases i with
      | zero =>
          simp only [List.eraseIdx_zero, List.tail_cons, List.map_cons, List.sum_cons]
          have hp : 0 ≤ p.amount := hpos p (by simp)
          linarith
      | succ j =>
          simp only [List.eraseIdx, List.map_cons, List.sum_cons]
          have := ih j (fun q hq => hpos q (by simp [hq]))
          linarith

theorem alloc_run_year_mem (c : Counter) (ys : List Nat) (pr : Nat × Nat)
    (h : pr ∈ alloc_run c ys) : pr.1 ∈ ys := by
  induction ys generalizing c with
  | nil => simp [alloc_run] at h
  | cons y rest ih =>
      simp only [alloc_run, List.mem_cons] at h
      rcases h with rfl | h
      · simp
      · exact List.mem_cons_of_mem _ (ih _ h)

theorem alloc_run_gt (c : Counter) (ys : List Nat) (y : Nat)
    (hchain : ys.Pairwise (· ≤ ·)) (hge : ∀ z ∈ ys, y ≤ z)
    (hyear : c.last_year = y) :
    ∀ pr ∈ alloc_run c ys, pr.1 = y → c.last_number < pr.2 := by
  induction ys generalizing c with
  | nil => simp [alloc_run]
  | cons z rest ih =>
      intro pr hpr hpy
      simp only [alloc_run, List.mem_cons] at hpr
      by_cases hz : z = y
      · subst hz
        rcases hpr with rfl | hpr
        · simp only [next_seq, hyear, if_pos rfl]
          exact Nat.lt_succ_self _
        · have step := ih (commit_seq c z) (List.Pairwise.sublist (List.sublist_cons_self z rest) hchain)
            (fun w hw => hge w (List.mem_cons_of_mem _ hw)) (by simp [commit_seq])
            pr hpr hpy
          have : c.last_number < (commit_seq c z).last_number := by
            simp [commit_seq, next_seq, hyear]
          omega
      · rcases hpr with rfl | hpr
        · exact absurd hpy hz
        · -- every year in `rest` is at least `z`, and `z > y`, so no later
          -- allocation can carry year `y`
          have hzy : y < z := lt_of_le_of_ne (hge z (by simp)) (fun h => hz h.symm)
          have hmem := alloc_run_year_mem (commit_seq c z) rest pr hpr
          have hge' := (List.pairwise_cons.mp hchain).1 pr.1 hmem
          omega

theorem alloc_run_pairwise (c : Counter) (ys : List Nat)
    (hchain : ys.Pairwise (· ≤ ·)) :
    (alloc_run c ys).Pairwise (fun a b => a.1 = b.1 → a.2 < b.2) := by
  induction ys generalizing c with
  | nil => simp [alloc_run]
  | cons y rest ih =>
      rw [alloc_run]
      refine List.pairwise_cons.mpr ⟨?_, ih _ (List.Pairwise.sublist (List.sublist_cons_self y rest) hchain)⟩
      intro b hb hyb
      have := alloc_run_gt (commit_seq c y) rest y
        (List.Pairwise.sublist (List.sublist_cons_self y rest) hchain)
        (fun w hw => (List.pairwise_cons.mp hchain).1 w hw)
        (by simp [commit_seq]) b hb hyb.symm
      simpa [commit_seq] using this


/-- The spec's per-entry invariant, weakened to what the code's epsilon
guard actually maintains: payments exceed the total by at most the
`0.001` slack of the overpayment check, and every recorded payment is
positive (the `Payment` data-model constraint). -/
def entry_sane (e : HistoryEntry) : Prop :=
  e.paid_amount ≤ e.total + 1 / 1000 ∧ ∀ p ∈ e.payments, 0 < p.amount

/-- Sanity of every entry of the ledger. -/
def ledger_sane (s : State) : Prop := ∀ e ∈ s.history, entry_sane e

/-- The spec's strict invariant (section 3): for every entry,
`sum(payments.amount) <= total`. -/
def ledger_le_total (s : State) : Prop := ∀ e ∈ s.history, e.paid_amount ≤ e.total

/-- The successful branch of `cmd_add_payment`, unfolded. -/
theorem cmd_add_payment_ok (s : State) (n : String) (amt : Rat) (d : NaiveDate)
    (s' : State) (h : cmd_add_payment s n amt d = Except.ok s') :
    0 < amt ∧ ∃ e, find_entry s.history n = some e ∧
      amt ≤ e.outstanding + 1 / 1000 ∧
      s' = { s with history := (update_entry s.history n
        (fun x => { x with payments := x.payments ++ [{ amount := amt, date := d }] })) } := by
  unfold cmd_add_payment at h
  split at h
  · simp at h
  · rename_i hle
    split at h
    · simp at h
    · rename_i e hfind
      dsimp only at h
      split at h
      · simp at h
      · rename_i hover
        refine ⟨lt_of_not_ge hle, e, hfind, le_of_not_gt hover, ?_⟩
        simpa using h.symm

/-- The successful branch of `cmd_remove_payment`, unfolded. -/
theorem cmd_remove_payment_ok (s : State) (n : String) (idx : Option Nat)
    (s' : State) (h : cmd_remove_payment s n idx = Except.ok s') :
    ∃ e, find_entry s.history n = some e ∧ e.payments ≠ [] ∧
      ∃ j, s' = { s with history := (update_entry s.history n
        (fun x => { x with payments := x.payments.eraseIdx j })) } := by
  unfold cmd_remove_payment at h
  split at h
  · simp at h
  · rename_i e hfind
    split at h
    · simp at h
    · rename_i hemp
      refine ⟨e, hfind, by simpa [List.isEmpty_iff] using hemp, ?_⟩
      split at h
      · rename_i i
        split at h
        · simp at h
        · exact ⟨i - 1, by simpa using h.symm⟩
      · exact ⟨e.payments.length - 1, by simpa using h.symm⟩

/-- A successfully parsed item token always carries a quantity greater
than zero (the `quantity <= 0.0` rejection of generator.rs line 56). -/
theorem parse_item_input_pos (pf : String → Option Rat) (input : String)
    (item_id : String) (q : Rat)
    (h : parse_item_input pf input = Except.ok (item_id, q)) : 0 < q := by
  unfold parse_item_input at h
  split at h
  · split at h
    · simp at h
    · split at h
      · simp at h
      · rename_i quantity hq
        simp only [Except.ok.injEq, Prod.mk.injEq] at h
        rw [← h.2]
        exact lt_of_not_ge hq
  · simp at h

/-- Every line amount produced from a catalog of nonnegative rates is
nonnegative. -/
theorem build_line_items_nonneg (cat : String → Option Item)
    (pf : String → Option Rat) (l : List String) (ls : List InvoiceLineItem)
    (hrate : ∀ id it, cat id = some it → 0 ≤ it.rate)
    (h : build_line_items cat pf l = Except.ok ls) :
    ∀ li ∈ ls, 0 ≤ li.amount := by
  induction l generalizing ls with
  | nil =>
      unfold build_line_items at h
      simp only [Except.ok.injEq] at h
      simp [← h]
  | cons input rest ih =>
      unfold build_line_items at h
      cases hp : parse_item_input pf input with
      | error e => rw [hp] at h; simp [bind, Except.bind] at h
      | ok pr =>
          obtain ⟨item_id, q⟩ := pr
          rw [hp] at h
          simp only [bind, Except.bind] at h
          cases hcat : cat item_id with
          | none => rw [hcat] at h; simp at h
          | some item =>
              rw [hcat] at h
              cases hrest : build_line_items cat pf rest with
              | error e => rw [hrest] at h; simp at h
              | ok tailItems =>
                  rw [hrest] at h
                  simp only [Except.ok.injEq] at h
                  intro li hli
                  rw [← h] at hli
                  rcases List.mem_cons.mp hli with rfl | hli
                  · exact mul_nonneg (hrate _ _ hcat)
                      (le_of_lt (parse_item_input_pos pf input item_id q hp))
                  · exact ih tailItems hrest li hli

/-- With nonnegative line amounts and a nonnegative tax rate the computed
total is nonnegative. -/
theorem compute_total_nonneg (ls : List InvoiceLineItem) (tax_rate : Rat)
    (hamounts : ∀ li ∈ ls, 0 ≤ li.amount) (htax : 0 ≤ tax_rate) :
    0 ≤ compute_total ls tax_rate := by
  unfold compute_total
  have hsub : 0 ≤ (ls.map (fun i => i.amount)).sum := by
    apply List.sum_nonneg
    intro x hx
    obtain ⟨li, hli, rfl⟩ := List.mem_map.mp hx
    exact hamounts li hli
  exact add_nonneg hsub (mul_nonneg hsub htax)

/-- The successful branch of `generate_invoice`, unfolded. -/
theorem generate_invoice_ok (clients : String → Option Client)
    (cat : String → Option Item) (pf : String → Option Rat) (tax_rate : Rat)
    (number_format : String) (current_year : Nat) (today : NaiveDate)
    (s : State) (client_id : String) (items_input : List String) (s' : State)
    (h : generate_invoice clients cat pf tax_rate number_format current_year
          today s client_id items_input = Except.ok s') :
    ∃ c ls, clients client_id = some c ∧
      build_line_items cat pf items_input = Except.ok ls ∧
      s' = { counter := { last_number := next_seq s.counter current_year,
                          last_year := current_year }
             history := s.history ++
              [{ number := format_invoice_number number_format current_year
                    (next_seq s.counter current_year)
                 client := client_id
                 date := today
                 total := compute_total ls tax_rate
                 file := format_invoice_number number_format current_year
                    (next_seq s.counter current_year) ++ ".pdf"
                 payments := []
                 items := items_input }] } := by
  unfold generate_invoice at h
  cases hcl : clients client_id with
  | none => rw [hcl] at h; simp at h
  | some c =>
      rw [hcl] at h
      cases hb : build_line_items cat pf items_input with
      | error e => rw [hb] at h; simp [bind, Except.bind] at h
      | ok ls =>
          rw [hb] at h
          simp only [bind, Except.bind, Except.ok.injEq] at h
          exact ⟨c, ls, rfl, rfl, h.symm⟩

/-- Regeneration without new items never changes the ledger: the only
`save_state` call of `regenerate_invoice` sits inside the
`new_items.is_some()` branch. -/
theorem regenerate_invoice_none_ok (clients : String → Option Client)
    (cat : String → Option Item) (pf : String → Option Rat) (tax_rate : Rat)
    (s : State) (n : String) (s' : State)
    (h : regenerate_invoice clients cat pf tax_rate s n none = Except.ok s') :
    s' = s := by
  unfold regenerate_invoice at h
  split at h
  · simp at h
  · rename_i e hfind
    dsimp only at h
    by_cases hemp : e.items.isEmpty
    · simp [hemp, bind, Except.bind] at h
    · rw [if_neg hemp] at h
      simp only [bind, Except.bind] at h
      split at h
      · simp at h
      · cases hb : build_line_items cat pf e.items with
        | error err => rw [hb] at h; simp at h
        | ok ls =>
            rw [hb] at h
            simpa using h.symm

/-- Regeneration without new items on an entry with no stored items fails
with `NoStoredItems` (generator.rs lines 101-104). -/
theorem regenerate_invoice_no_stored (clients : String → Option Client)
    (cat : String → Option Item) (pf : String → Option Rat) (tax_rate : Rat)
    (s : State) (n : String) (e : HistoryEntry)
    (hfind : find_entry s.history n = some e) (hemp : e.items = []) :
    regenerate_invoice clients cat pf tax_rate s n none =
      Except.error (InvoiceError.NoStoredItems n) := by
  unfold regenerate_invoice
  rw [hfind]
  simp [hemp, bind, Except.bind]

/-- The successful branch of `regenerate_invoice` with new items,
unfolded. -/
theorem regenerate_invoice_some_ok (clients : String → Option Client)
    (cat : String → Option Item) (pf : String → Option Rat) (tax_rate : Rat)
    (s : State) (n : String) (items : List String) (s' : State)
    (h : regenerate_invoice clients cat pf tax_rate s n (some items) = Except.ok s') :
    ∃ e ls, find_entry s.history n = some e ∧
      build_line_items cat pf items = Except.ok ls ∧
      s' = { s with history := (update_entry s.history n
        (fun x => { x with items := items, total := compute_total ls tax_rate })) } := by
  unfold regenerate_invoice at h
  split at h
  · simp at h
  · rename_i e hfind
    dsimp only at h
    simp only [bind, Except.bind] at h
    split at h
    · simp at h
    · cases hb : build_line_items cat pf items with
      | error err => rw [hb] at h; simp at h
      | ok ls =>
          rw [hb] at h
          refine ⟨e, ls, hfind, rfl, ?_⟩
          simpa using h.symm

/-- A successful `cmd_add_payment` preserves the epsilon-weakened ledger
invariant. -/
theorem add_payment_preserves_sane (s : State) (n : String) (amt : Rat)
    (d : NaiveDate) (s' : State) (hs : ledger_sane s)
    (h : cmd_add_payment s n amt d = Except.ok s') : ledger_sane s' := by
  obtain ⟨hamt, e, hfind, hbound, rfl⟩ := cmd_add_payment_ok s n amt d s' h
  obtain ⟨l1, l2, hl, -, -, hupd⟩ := find_entry_eq_some _ _ _ hfind
  have hemem : e ∈ s.history := by rw [hl]; simp
  have hesane := hs e hemem
  intro x hx
  simp only [hupd] at hx
  rw [List.mem_append, List.mem_cons] at hx
  rcases hx with hx | hx | hx
  · exact hs x (by rw [hl]; exact List.mem_append_left _ hx)
  · subst hx
    constructor
    · rw [paid_amount_append]
      have hout : e.outstanding = e.total - e.paid_amount := rfl
      rw [hout] at hbound
      simp only
      linarith
    · intro p hp
      simp only [List.mem_append, List.mem_singleton] at hp
      rcases hp with hp | rfl
      · exact hesane.2 p hp
      · exact hamt
  · exact hs x (by rw [hl]; exact List.mem_append_right _ (List.mem_cons_of_mem _ hx))

/-- A successful `cmd_remove_payment` preserves the epsilon-weakened
ledger invariant. -/
theorem remove_payment_preserves_sane (s : State) (n : String)
    (idx : Option Nat) (s' : State) (hs : ledger_sane s)
    (h : cmd_remove_payment s n idx = Except.ok s') : ledger_sane s' := by
  obtain ⟨e, hfind, hne, j, rfl⟩ := cmd_remove_payment_ok s n idx s' h
  obtain ⟨l1, l2, hl, -, -, hupd⟩ := find_entry_eq_some _ _ _ hfind
  have hemem : e ∈ s.history := by rw [hl]; simp
  have hesane := hs e hemem
  intro x hx
  simp only [hupd] at hx
  rw [List.mem_append, List.mem_cons] at hx
  rcases hx with hx | hx | hx
  · exact hs x (by rw [hl]; exact List.mem_append_left _ hx)
  · subst hx
    constructor
    · have hle := sum_map_amount_eraseIdx_le e.payments j
        (fun p hp => le_of_lt (hesane.2 p hp))
      have := hesane.1
      simp only [HistoryEntry.paid_amount] at this ⊢
      linarith
    · intro p hp
      exact hesane.2 p (List.mem_of_mem_eraseIdx hp)
  · exact hs x (by rw [hl]; exact List.mem_append_right _ (List.mem_cons_of_mem _ hx))

/-- A successful `generate_invoice` preserves the epsilon-weakened ledger
invariant whenever every catalog rate and the tax rate are nonnegative
(so that the freshly computed total cannot be negative). -/
theorem generate_preserves_sane (clients : String → Option Client)
    (cat : String → Option Item) (pf : String → Option Rat) (tax_rate : Rat)
    (number_format : String) (current_year : Nat) (today : NaiveDate)
    (s : State) (client_id : String) (items_input : List String) (s' : State)
    (hrate : ∀ id it, cat id = some it → 0 ≤ it.rate) (htax : 0 ≤ tax_rate)
    (hs : ledger_sane s)
    (h : generate_invoice clients cat pf tax_rate number_format current_year
          today s client_id items_input = Except.ok s') : ledger_sane s' := by
  obtain ⟨c, ls, hcl, hb, rfl⟩ :=
    generate_invoice_ok clients cat pf tax_rate number_format current_year
      today s client_id items_input s' h
  intro x hx
  simp only [List.mem_append, List.mem_singleton] at hx
  rcases hx with hx | rfl
  · exact hs x hx
  · have htot : 0 ≤ compute_total ls tax_rate :=
      compute_total_nonneg ls tax_rate
        (build_line_items_nonneg cat pf items_input ls hrate hb) htax
    constructor
    · simp only [HistoryEntry.paid_amount, List.map_nil, List.sum_nil]
      linarith
    · intro p hp
      simp at hp

/-! ### Concrete fixtures used by witnesses and counterexamples -/

/-- A history entry with the given total and payments; the remaining
fields are fixed plausible values. -/
def mk_entry (total : Rat) (payments : List Payment) : HistoryEntry :=
  { number := "INV-2026-0001"
    client := "example-client"
    date := 10
    total := total
    file := "INV-2026-0001.pdf"
    payments := payments
    items := ["consulting:1"] }

/-- A one-item catalog: `consulting` at rate 50. -/
def exCatalog : String → Option Item := fun id =>
  if id = "consulting" then
    some { description := "Technical Consulting", rate := 50, unit := "hour" }
  else none

/-- A one-client catalog. -/
def exClients : String → Option Client := fun id =>
  if id = "example-client" then some { name := "Example Client Inc." } else none

/-- A float parser defined on the quantity strings the fixtures use. -/
def exParse : String → Option Rat := fun s =>
  if s = "1" then some 1 else if s = "2" then some 2 else none

/-! ### Claim theorems -/

/-- Claim C7: for every entry, status is UNPAID when the paid amount is
at most zero, PAID when it is positive and at least the total, and
PARTIAL otherwise; the tie at a zero-total entry with no payments goes
to UNPAID, not PAID. -/
theorem C7_status_classification :
    (∀ e : HistoryEntry, e.paid_amount ≤ 0 → e.status = PaymentStatus.Unpaid) ∧
    (∀ e : HistoryEntry, 0 < e.paid_amount → e.total ≤ e.paid_amount →
        e.status = PaymentStatus.Paid) ∧
    (∀ e : HistoryEntry, 0 < e.paid_amount → e.paid_amount < e.total →
        e.status = PaymentStatus.Partial) ∧
    (∀ e : HistoryEntry, e.total = 0 → e.payments = [] →
        e.status = PaymentStatus.Unpaid) := by
  refine ⟨?_, ?_, ?_, ?_⟩
  · intro e h
    simp [HistoryEntry.status, h]
  · intro e h1 h2
    simp [HistoryEntry.status, not_le.mpr h1, h2]
  · intro e h1 h2
    simp [HistoryEntry.status, not_le.mpr h1, not_le.mpr h2]
  · intro e htot hpay
    simp [HistoryEntry.status, HistoryEntry.paid_amount, hpay]

/-- Witness for C7 at concrete entries: an entry fully paid, a partially
paid one, and the zero-total tie-break. -/
theorem C7_status_classification_witness :
    (mk_entry 100 [{ amount := 100, date := 12 }]).status = PaymentStatus.Paid ∧
    (mk_entry 100 [{ amount := 40, date := 12 }]).status = PaymentStatus.Partial ∧
    (mk_entry 0 []).status = PaymentStatus.Unpaid ∧
    (mk_entry 100 []).status = PaymentStatus.Unpaid :=
  ⟨C7_status_classification.2.1 _
      (by norm_num [mk_entry, HistoryEntry.paid_amount])
      (by norm_num [mk_entry, HistoryEntry.paid_amount]),
   C7_status_classification.2.2.1 _
      (by norm_num [mk_entry, HistoryEntry.paid_amount])
      (by norm_num [mk_entry, HistoryEntry.paid_amount]),
   C7_status_classification.2.2.2 _ (by norm_num [mk_entry]) (by norm_num [mk_entry]),
   C7_status_classification.1 _ (by norm_num [mk_entry, HistoryEntry.paid_amount])⟩

/-- Claim C3: on load, a non-empty payments list is used as-is; an empty
one with the legacy `paid = true` flag synthesizes the single payment
`{amount: total, date: issue_date}`; otherwise the entry has no
payments.  Re-migrating an already-migrated entry changes nothing. -/
theorem C3_legacy_migration :
    (∀ raw : RawHistoryEntry, raw.payments ≠ [] →
        (migrate_entry raw).payments = raw.payments) ∧
    (∀ raw : RawHistoryEntry, raw.payments = [] → raw.paid = some true →
        (migrate_entry raw).payments = [{ amount := raw.total, date := raw.date }]) ∧
    (∀ raw : RawHistoryEntry, raw.payments = [] → raw.paid ≠ some true →
        (migrate_entry raw).payments = []) ∧
    (∀ e : HistoryEntry, migrate_entry (entry_to_raw e) = e) := by
  refine ⟨?_, ?_, ?_, ?_⟩
  · intro raw h
    simp [migrate_entry, h]
  · intro raw h hp
    simp [migrate_entry, h, hp]
  · intro raw h hp
    cases hpaid : raw.paid with
    | none => simp [migrate_entry, h, hpaid]
    | some b =>
        cases b with
        | false => simp [migrate_entry, h, hpaid]
        | true => exact absurd hpaid hp
  · intro e
    obtain ⟨num, cl, dt, tot, fl, pays, its⟩ := e
    cases pays <;> simp [migrate_entry, entry_to_raw]

/-- A raw (pre-migration) entry with the given total, legacy flag and
payments; the remaining fields are fixed plausible values. -/
def mk_raw (total : Rat) (paid : Option Bool) (payments : List Payment) :
    RawHistoryEntry :=
  { number := "INV-2025-0001"
    client := "example-client"
    date := 10
    total := total
    file := "INV-2025-0001.pdf"
    paid := paid
    payments := payments
    items := [] }

/-- Witness for C3 at concrete raw entries covering all three migration
shapes and the idempotence round-trip. -/
theorem C3_legacy_migration_witness :
    (migrate_entry (mk_raw 1200 (some false) [{ amount := 500, date := 15 }])).payments =
      [{ amount := 500, date := 15 }] ∧
    (migrate_entry (mk_raw 1200 (some true) [])).payments =
      [{ amount := 1200, date := 10 }] ∧
    (migrate_entry (mk_raw 1200 none [])).payments = [] ∧
    migrate_entry (entry_to_raw (mk_entry 1200 [{ amount := 1200, date := 10 }])) =
      mk_entry 1200 [{ amount := 1200, date := 10 }] :=
  ⟨C3_legacy_migration.1 _ (by simp [mk_raw]),
   C3_legacy_migration.2.1 _ rfl rfl,
   C3_legacy_migration.2.2.1 _ rfl (by simp [mk_raw]),
   C3_legacy_migration.2.2.2 _⟩

/-- Claim C10 (implicit): a legacy entry with `paid = true`, no payments
and a zero total migrates to exactly one payment of amount 0 — violating
the data model's `amount > 0` constraint — so its paid amount is 0 and
its derived status is UNPAID, not PAID. -/
theorem C10_zero_total_legacy_unpaid :
    (migrate_entry (mk_raw 0 (some true) [])).payments =
      [{ amount := 0, date := 10 }] ∧
    (∀ p ∈ (migrate_entry (mk_raw 0 (some true) [])).payments, ¬ 0 < p.amount) ∧
    (migrate_entry (mk_raw 0 (some true) [])).paid_amount = 0 ∧
    (migrate_entry (mk_raw 0 (some true) [])).status = PaymentStatus.Unpaid := by
  refine ⟨by simp [migrate_entry, mk_raw], ?_, ?_, ?_⟩
  · intro p hp
    simp [migrate_entry, mk_raw] at hp
    simp [hp]
  · simp [migrate_entry, mk_raw, HistoryEntry.paid_amount]
  · simp [migrate_entry, mk_raw, HistoryEntry.status, HistoryEntry.paid_amount]

/-- Evaluation of `parse_item_input` on the fixture token. -/
theorem parse_item_input_ex :
    parse_item_input exParse "consulting:1" = Except.ok ("consulting", 1) := by
  unfold parse_item_input
  rw [show (split_colon "consulting:1".data).map String.mk = ["consulting", "1"] from by decide]
  norm_num [exParse]

/-- Evaluation of `build_line_items` on the fixture token list. -/
theorem build_line_items_ex :
    build_line_items exCatalog exParse ["consulting:1"] =
      Except.ok [{ description := "Technical Consulting", quantity := 1,
                   unit := "hour", rate := 50, amount := 50 }] := by
  unfold build_line_items
  rw [parse_item_input_ex]
  unfold build_line_items
  norm_num [bind, Except.bind, exCatalog]

/-- The empty ledger fixture, with a counter left over from 2025. -/
def exState0 : State :=
  { counter := { last_number := 7, last_year := 2025 }, history := [] }

/-- The ledger after the fixture generation: one fresh entry and the
committed counter. -/
def exState1 : State :=
  { counter := { last_number := 1, last_year := 2026 }
    history := [{ number := "INV-2026-0001"
                  client := "example-client"
                  date := 20
                  total := 50
                  file := "INV-2026-0001.pdf"
                  payments := []
                  items := ["consulting:1"] }] }

/-- Evaluation of a whole `generate_invoice` run in calendar year 2026
against the 2025 counter. -/
theorem generate_invoice_ex :
    generate_invoice exClients exCatalog exParse 0 "INV-\x7byear\x7d-\x7bseq:04\x7d"
      2026 20 exState0 "example-client" ["consulting:1"] = Except.ok exState1 := by
  unfold exState1
  unfold generate_invoice
  rw [show exClients "example-client" = some { name := "Example Client Inc." } from rfl]
  rw [build_line_items_ex]
  dsimp only [bind, Except.bind]
  rw [show next_seq exState0.counter 2026 = 1 from by simp [next_seq, exState0]]
  rw [show format_invoice_number "INV-\x7byear\x7d-\x7bseq:04\x7d" 2026 1 = "INV-2026-0001"
    from by decide]
  norm_num [compute_total, exState0]
  decide

/-- Claim C4: the allocated sequence is `last_number + 1` when the
counter's year matches the current calendar year and 1 otherwise; a
`{last_year: 2025, last_number: 7}` counter generating in 2026 yields
sequence 1, not 8; a successful generation commits exactly that
allocation; and across a run of generations whose calendar years never
decrease, no sequence number is ever allocated twice within one year. -/
theorem C4_sequence_allocation :
    (∀ (c : Counter) (y : Nat), c.last_year = y → next_seq c y = c.last_number + 1) ∧
    (∀ (c : Counter) (y : Nat), c.last_year ≠ y → next_seq c y = 1) ∧
    next_seq { last_number := 7, last_year := 2025 } 2026 = 1 ∧
    (∀ (clients : String → Option Client) (cat : String → Option Item)
        (pf : String → Option Rat) (tax_rate : Rat) (number_format : String)
        (current_year : Nat) (today : NaiveDate) (s : State)
        (client_id : String) (items_input : List String) (s' : State),
        generate_invoice clients cat pf tax_rate number_format current_year
          today s client_id items_input = Except.ok s' →
        s'.counter = { last_number := next_seq s.counter current_year,
                       last_year := current_year }) ∧
    (∀ (c : Counter) (ys : List Nat), ys.Pairwise (· ≤ ·) →
        (alloc_run c ys).Pairwise (fun a b => a.1 = b.1 → a.2 ≠ b.2)) := by
  refine ⟨?_, ?_, ?_, ?_, ?_⟩
  · intro c y h
    simp [next_seq, h]
  · intro c y h
    simp [next_seq, h]
  · simp [next_seq]
  · intro clients cat pf tax_rate number_format current_year today s
      client_id items_input s' h
    obtain ⟨c, ls, -, -, rfl⟩ := generate_invoice_ok clients cat pf tax_rate
      number_format current_year today s client_id items_input s' h
    rfl
  · intro c ys hchain
    exact (alloc_run_pairwise c ys hchain).imp
      (fun hab heq => Nat.ne_of_lt (hab heq))

/-- Witness for C4: the year-rollover counter, a same-year step, the
concrete 2026 generation, and a three-allocation run crossing a year
boundary. -/
theorem C4_sequence_allocation_witness :
    next_seq { last_number := 7, last_year := 2025 } 2025 = 8 ∧
    next_seq { last_number := 7, last_year := 2025 } 2026 = 1 ∧
    exState1.counter = { last_number := next_seq exState0.counter 2026,
                         last_year := 2026 } ∧
    (alloc_run { last_number := 7, last_year := 2025 } [2025, 2026, 2026]).Pairwise
      (fun a b => a.1 = b.1 → a.2 ≠ b.2) :=
  ⟨C4_sequence_allocation.1 _ 2025 rfl,
   C4_sequence_allocation.2.2.1,
   C4_sequence_allocation.2.2.2.1 exClients exCatalog exParse 0
     "INV-\x7byear\x7d-\x7bseq:04\x7d" 2026 20 exState0 "example-client"
     ["consulting:1"] exState1 generate_invoice_ex,
   C4_sequence_allocation.2.2.2.2 _ _ (by decide)⟩

/-- An in-range 1-based index resolves to the corresponding entry of the
newest-first display order. -/
theorem resolve_index_ok (s : State) (ref : String) (i : Nat) (e : HistoryEntry)
    (hparse : parse_usize ref = some i) (h1 : 1 ≤ i) (h2 : i ≤ s.history.length)
    (hget : s.history.reverse[i - 1]? = some e) :
    resolve_invoice_number s ref = Except.ok e.number := by
  unfold resolve_invoice_number
  rw [hparse]
  dsimp only
  rw [if_neg (by omega : ¬ i = 0)]
  rw [if_neg (by rw [List.length_reverse]; omega)]
  rw [hget]

/-- Claim C5: a reference parsing as a positive integer `i` with
`1 <= i <= len(history)` resolves to the `(i-1)`-th entry of the reversed
(newest-first) history; `i = 0` and out-of-range indices yield
`InvalidInvoiceIndex`; a non-integer reference matching no entry's number
yields `InvoiceNotFound`, never `InvalidInvoiceIndex`; and index 1
resolves to the most recently appended entry. -/
theorem C5_resolver :
    (∀ (s : State) (ref : String) (i : Nat) (e : HistoryEntry),
        parse_usize ref = some i → 1 ≤ i → i ≤ s.history.length →
        s.history.reverse[i - 1]? = some e →
        resolve_invoice_number s ref = Except.ok e.number) ∧
    (∀ (s : State) (ref : String), parse_usize ref = some 0 →
        resolve_invoice_number s ref =
          Except.error (InvoiceError.InvalidInvoiceIndex ref)) ∧
    (∀ (s : State) (ref : String) (i : Nat), parse_usize ref = some i →
        s.history.length < i →
        resolve_invoice_number s ref =
          Except.error (InvoiceError.InvalidInvoiceIndex ref)) ∧
    (∀ (s : State) (ref : String), parse_usize ref = none →
        (∀ e ∈ s.history, e.number ≠ ref) →
        resolve_invoice_number s ref =
          Except.error (InvoiceError.InvoiceNotFound ref)) ∧
    (∀ (s : State) (e : HistoryEntry), s.history.getLast? = some e →
        resolve_invoice_number s "1" = Except.ok e.number) := by
  refine ⟨resolve_index_ok, ?_, ?_, ?_, ?_⟩
  · intro s ref hparse
    unfold resolve_invoice_number
    rw [hparse]
    dsimp only
    rw [if_pos rfl]
  · intro s ref i hparse hlen
    unfold resolve_invoice_number
    rw [hparse]
    dsimp only
    by_cases hi : i = 0
    · rw [if_pos hi]
    · rw [if_neg hi]
      rw [if_pos (by rw [List.length_reverse]; omega)]
  · intro s ref hparse hnone
    unfold resolve_invoice_number
    rw [hparse]
    dsimp only
    rw [if_neg]
    simp only [List.any_eq_true, decide_eq_true_eq, not_exists]
    intro x hx
    exact hnone x hx.1 hx.2
  · intro s e hlast
    have hne : s.history ≠ [] := by
      intro h
      rw [h] at hlast
      simp at hlast
    refine resolve_index_ok s "1" 1 e (by decide) le_rfl
      (Nat.one_le_iff_ne_zero.mpr (by simpa [List.length_eq_zero] using hne)) ?_
    rw [show (1 : Nat) - 1 = 0 from rfl]
    rw [← List.head?_eq_getElem?, List.head?_reverse]
    exact hlast

/-- A second, newer entry for the resolver fixtures. -/
def exEntryB : HistoryEntry :=
  { mk_entry 500 [] with number := "INV-2026-0002", file := "INV-2026-0002.pdf" }

/-- A two-entry ledger: `INV-2026-0001` appended first, `INV-2026-0002`
appended last. -/
def exStateR : State :=
  { counter := { last_number := 2, last_year := 2026 }
    history := [mk_entry 1000 [], exEntryB] }

/-- Witness for C5 on the two-entry ledger: index 1 hits the newest
entry, index 2 the older one, index 0 and 3 are invalid, and an unknown
non-numeric reference is NotFound. -/
theorem C5_resolver_witness :
    resolve_invoice_number exStateR "1" = Except.ok "INV-2026-0002" ∧
    resolve_invoice_number exStateR "2" = Except.ok "INV-2026-0001" ∧
    resolve_invoice_number exStateR "0" =
      Except.error (InvoiceError.InvalidInvoiceIndex "0") ∧
    resolve_invoice_number exStateR "3" =
      Except.error (InvoiceError.InvalidInvoiceIndex "3") ∧
    resolve_invoice_number exStateR "INV-9999" =
      Except.error (InvoiceError.InvoiceNotFound "INV-9999") :=
  ⟨C5_resolver.2.2.2.2 exStateR exEntryB rfl,
   C5_resolver.1 exStateR "2" 2 (mk_entry 1000 []) (by decide) (by norm_num)
     (by simp [exStateR]) rfl,
   C5_resolver.2.1 exStateR "0" (by decide),
   C5_resolver.2.2.1 exStateR "3" 3 (by decide) (by simp [exStateR]),
   C5_resolver.2.2.2.1 exStateR "INV-9999" (by decide)
     (by
       intro e he
       simp [exStateR] at he
       rcases he with rfl | rfl <;> decide)⟩

/-- A singleton history decomposes trivially. -/
theorem singleton_decomp (e x : HistoryEntry) (l1 l2 : List HistoryEntry)
    (h : [e] = l1 ++ x :: l2) : l1 = [] ∧ x = e ∧ l2 = [] := by
  rcases l1 with _ | ⟨a, l1⟩
  · simp only [List.nil_append, List.cons.injEq] at h
    exact ⟨rfl, h.1.symm, h.2.symm⟩
  · simp only [List.cons_append, List.cons.injEq] at h
    exact absurd h.2.symm (by simp)

theorem add_payment_nonpos_err (s : State) (n : String) (amt : Rat)
    (d : NaiveDate) (h : amt ≤ 0) :
    cmd_add_payment s n amt d = Except.error InvoiceError.InvalidPaymentAmount := by
  simp [cmd_add_payment, h]

theorem add_payment_overpay_err (s : State) (n : String) (amt : Rat)
    (d : NaiveDate) (e : HistoryEntry) (hfind : find_entry s.history n = some e)
    (hover : e.outstanding + 1 / 1000 < amt) (hpos : 0 < amt) :
    cmd_add_payment s n amt d =
      Except.error (InvoiceError.OverPayment n e.outstanding) := by
  unfold cmd_add_payment
  rw [if_neg (not_le.mpr hpos), hfind]
  dsimp only
  rw [if_pos hover]

theorem add_payment_appends (s : State) (n : String) (amt : Rat)
    (d : NaiveDate) (e : HistoryEntry) (hfind : find_entry s.history n = some e)
    (hpos : 0 < amt) (hle : amt ≤ e.outstanding + 1 / 1000) :
    ∃ l1 l2, s.history = l1 ++ e :: l2 ∧ (∀ x ∈ l1, x.number ≠ n) ∧
      cmd_add_payment s n amt d = Except.ok { s with history :=
        l1 ++ { e with payments := e.payments ++ [{ amount := amt, date := d }] } :: l2 } := by
  obtain ⟨l1, l2, hl, hl1, hen, hupd⟩ := find_entry_eq_some _ _ _ hfind
  refine ⟨l1, l2, hl, hl1, ?_⟩
  unfold cmd_add_payment
  rw [if_neg (not_le.mpr hpos), hfind]
  dsimp only
  rw [if_neg (not_lt.mpr hle)]
  rw [hupd]

theorem remove_payment_no_payments_err (s : State) (n : String)
    (idx : Option Nat) (e : HistoryEntry)
    (hfind : find_entry s.history n = some e) (hemp : e.payments = []) :
    cmd_remove_payment s n idx = Except.error (InvoiceError.NoPayments n) := by
  unfold cmd_remove_payment
  rw [hfind]
  dsimp only
  rw [if_pos (by simp [hemp])]

theorem remove_payment_bad_index_err (s : State) (n : String) (i : Nat)
    (e : HistoryEntry) (hfind : find_entry s.history n = some e)
    (hne : e.payments ≠ []) (hbad : i = 0 ∨ e.payments.length < i) :
    cmd_remove_payment s n (some i) =
      Except.error (InvoiceError.InvalidPaymentIndex n i e.payments.length) := by
  unfold cmd_remove_payment
  rw [hfind]
  dsimp only
  rw [if_neg (by simp [hne])]
  rw [if_pos hbad]

theorem remove_payment_at_index (s : State) (n : String) (i : Nat)
    (e : HistoryEntry) (hfind : find_entry s.history n = some e)
    (h1 : 1 ≤ i) (h2 : i ≤ e.payments.length) :
    ∃ l1 l2, s.history = l1 ++ e :: l2 ∧ (∀ x ∈ l1, x.number ≠ n) ∧
      cmd_remove_payment s n (some i) = Except.ok { s with history :=
        l1 ++ { e with payments := e.payments.take (i - 1) ++ e.payments.drop i } :: l2 } := by
  obtain ⟨l1, l2, hl, hl1, hen, hupd⟩ := find_entry_eq_some _ _ _ hfind
  refine ⟨l1, l2, hl, hl1, ?_⟩
  unfold cmd_remove_payment
  rw [hfind]
  dsimp only
  rw [if_neg (by
    simp only [List.isEmpty_iff]
    intro hc
    rw [hc] at h2
    simp at h2
    omega)]
  rw [if_neg (by push_neg; omega)]
  rw [hupd]
  have herase : e.payments.eraseIdx (i - 1) =
      e.payments.take (i - 1) ++ e.payments.drop i := by
    rw [List.eraseIdx_eq_take_drop_succ, (by omega : i - 1 + 1 = i)]
  rw [herase]

theorem remove_payment_default_last (s : State) (n : String) (e : HistoryEntry)
    (hfind : find_entry s.history n = some e) (hne : e.payments ≠ []) :
    ∃ l1 l2, s.history = l1 ++ e :: l2 ∧ (∀ x ∈ l1, x.number ≠ n) ∧
      cmd_remove_payment s n none = Except.ok { s with history :=
        l1 ++ { e with payments := e.payments.dropLast } :: l2 } := by
  obtain ⟨l1, l2, hl, hl1, hen, hupd⟩ := find_entry_eq_some _ _ _ hfind
  refine ⟨l1, l2, hl, hl1, ?_⟩
  unfold cmd_remove_payment
  rw [hfind]
  dsimp only
  rw [if_neg (by simp [hne])]
  rw [hupd]
  have hdrop : e.payments.eraseIdx (e.payments.length - 1) = e.payments.dropLast :=
    (List.dropLast_eq_eraseIdx (by
      have := List.length_pos.mpr hne
      omega)).symm
  rw [hdrop]

/-- Claim C2: add-payment rejects a non-positive amount with
`InvalidPaymentAmount`, rejects `amount > outstanding + 0.001` with
`OverPayment` carrying the outstanding balance, and otherwise appends
exactly `Payment {amount, date}` to the located entry while leaving every
other entry untouched; failures return before the ledger is written. -/
theorem C2_add_payment :
    (∀ (s : State) (n : String) (amt : Rat) (d : NaiveDate), amt ≤ 0 →
        cmd_add_payment s n amt d =
          Except.error InvoiceError.InvalidPaymentAmount) ∧
    (∀ (s : State) (n : String) (amt : Rat) (d : NaiveDate) (e : HistoryEntry),
        0 < amt → find_entry s.history n = some e →
        e.outstanding + 1 / 1000 < amt →
        cmd_add_payment s n amt d =
          Except.error (InvoiceError.OverPayment n e.outstanding)) ∧
    (∀ (s : State) (n : String) (amt : Rat) (d : NaiveDate) (e : HistoryEntry),
        0 < amt → find_entry s.history n = some e →
        amt ≤ e.outstanding + 1 / 1000 →
        ∃ l1 l2, s.history = l1 ++ e :: l2 ∧ (∀ x ∈ l1, x.number ≠ n) ∧
          cmd_add_payment s n amt d = Except.ok { s with history :=
            l1 ++ { e with payments :=
              e.payments ++ [{ amount := amt, date := d }] } :: l2 }) :=
  ⟨add_payment_nonpos_err,
   fun s n amt d e hpos hfind hover =>
     add_payment_overpay_err s n amt d e hfind hover hpos,
   fun s n amt d e hpos hfind hle =>
     add_payment_appends s n amt d e hfind hpos hle⟩

/-- A one-entry ledger fixture: total 1000, no payments yet. -/
def exStateP : State :=
  { counter := { last_number := 1, last_year := 2026 }
    history := [mk_entry 1000 []] }

theorem find_entry_exStateP :
    find_entry exStateP.history "INV-2026-0001" = some (mk_entry 1000 []) := by
  simp [exStateP, find_entry, mk_entry]

/-- Witness for C2 on the one-entry ledger: a negative amount, a clear
overpayment, and a successful partial payment. -/
theorem C2_add_payment_witness :
    cmd_add_payment exStateP "INV-2026-0001" (-5) 15 =
      Except.error InvoiceError.InvalidPaymentAmount ∧
    cmd_add_payment exStateP "INV-2026-0001" 1500 15 =
      Except.error (InvoiceError.OverPayment "INV-2026-0001" 1000) ∧
    cmd_add_payment exStateP "INV-2026-0001" 400 15 = Except.ok
      { exStateP with history :=
        [{ mk_entry 1000 [] with payments := [{ amount := 400, date := 15 }] }] } := by
  have hout : (mk_entry 1000 []).outstanding = 1000 := by
    norm_num [HistoryEntry.outstanding, HistoryEntry.paid_amount, mk_entry]
  refine ⟨C2_add_payment.1 exStateP "INV-2026-0001" (-5) 15 (by norm_num), ?_, ?_⟩
  · have h := C2_add_payment.2.1 exStateP "INV-2026-0001" 1500 15 (mk_entry 1000 [])
      (by norm_num) find_entry_exStateP (by rw [hout]; norm_num)
    rwa [hout] at h
  · obtain ⟨l1, l2, hl, -, heq⟩ := C2_add_payment.2.2 exStateP "INV-2026-0001" 400 15
      (mk_entry 1000 []) (by norm_num) find_entry_exStateP (by rw [hout]; norm_num)
    have hl' : [mk_entry 1000 []] = l1 ++ mk_entry 1000 [] :: l2 := hl
    obtain ⟨h1, -, h2⟩ := singleton_decomp _ _ _ _ hl'
    subst h1
    subst h2
    simpa [mk_entry] using heq

/-- Claim C8: remove-payment fails with `NoPayments` on an entry with no
payments; an explicit 1-based index outside `[1, len(payments)]` fails
with `InvalidPaymentIndex` carrying the payment count; a valid index
removes exactly that element, keeping the remaining payments in order;
and with no index the last (most recently added) payment is removed. -/
theorem C8_remove_payment :
    (∀ (s : State) (n : String) (idx : Option Nat) (e : HistoryEntry),
        find_entry s.history n = some e → e.payments = [] →
        cmd_remove_payment s n idx =
          Except.error (InvoiceError.NoPayments n)) ∧
    (∀ (s : State) (n : String) (i : Nat) (e : HistoryEntry),
        find_entry s.history n = some e → e.payments ≠ [] →
        i = 0 ∨ e.payments.length < i →
        cmd_remove_payment s n (some i) =
          Except.error (InvoiceError.InvalidPaymentIndex n i e.payments.length)) ∧
    (∀ (s : State) (n : String) (i : Nat) (e : HistoryEntry),
        find_entry s.history n = some e → 1 ≤ i → i ≤ e.payments.length →
        ∃ l1 l2, s.history = l1 ++ e :: l2 ∧ (∀ x ∈ l1, x.number ≠ n) ∧
          cmd_remove_payment s n (some i) = Except.ok { s with history :=
            l1 ++ { e with payments :=
              e.payments.take (i - 1) ++ e.payments.drop i } :: l2 }) ∧
    (∀ (s : State) (n : String) (e : HistoryEntry),
        find_entry s.history n = some e → e.payments ≠ [] →
        ∃ l1 l2, s.history = l1 ++ e :: l2 ∧ (∀ x ∈ l1, x.number ≠ n) ∧
          cmd_remove_payment s n none = Except.ok { s with history :=
            l1 ++ { e with payments := e.payments.dropLast } :: l2 }) :=
  ⟨remove_payment_no_payments_err,
   remove_payment_bad_index_err,
   remove_payment_at_index,
   remove_payment_default_last⟩

/-- A one-entry ledger fixture with two recorded payments. -/
def exStateQ : State :=
  { counter := { last_number := 1, last_year := 2026 }
    history := [mk_entry 1000 [{ amount := 300, date := 15 },
                               { amount := 400, date := 20 }]] }

theorem find_entry_exStateQ :
    find_entry exStateQ.history "INV-2026-0001" =
      some (mk_entry 1000 [{ amount := 300, date := 15 },
                           { amount := 400, date := 20 }]) := by
  simp [exStateQ, find_entry, mk_entry]

/-- Witness for C8: no payments to remove, an out-of-range index, removal
by index 1, and default removal of the last payment. -/
theorem C8_remove_payment_witness :
    cmd_remove_payment exStateP "INV-2026-0001" none =
      Except.error (InvoiceError.NoPayments "INV-2026-0001") ∧
    cmd_remove_payment exStateQ "INV-2026-0001" (some 3) =
      Except.error (InvoiceError.InvalidPaymentIndex "INV-2026-0001" 3 2) ∧
    cmd_remove_payment exStateQ "INV-2026-0001" (some 1) = Except.ok
      { exStateQ with history :=
        [mk_entry 1000 [{ amount := 400, date := 20 }]] } ∧
    cmd_remove_payment exStateQ "INV-2026-0001" none = Except.ok
      { exStateQ with history :=
        [mk_entry 1000 [{ amount := 300, date := 15 }]] } := by
  refine ⟨C8_remove_payment.1 exStateP "INV-2026-0001" none (mk_entry 1000 [])
      find_entry_exStateP rfl, ?_, ?_, ?_⟩
  · have h := C8_remove_payment.2.1 exStateQ "INV-2026-0001" 3 _
      find_entry_exStateQ (by simp [mk_entry]) (by right; simp [mk_entry])
    simpa [mk_entry] using h
  · obtain ⟨l1, l2, hl, -, heq⟩ := C8_remove_payment.2.2.1 exStateQ "INV-2026-0001" 1 _
      find_entry_exStateQ le_rfl (by simp [mk_entry])
    obtain ⟨h1, -, h2⟩ := singleton_decomp _ _ _ _ hl
    subst h1
    subst h2
    simpa [mk_entry] using heq
  · obtain ⟨l1, l2, hl, -, heq⟩ := C8_remove_payment.2.2.2 exStateQ "INV-2026-0001" _
      find_entry_exStateQ (by simp [mk_entry])
    obtain ⟨h1, -, h2⟩ := singleton_decomp _ _ _ _ hl
    subst h1
    subst h2
    simpa [mk_entry] using heq

/-- Claim C6: a successful edit/regenerate with new items changes only
the located entry's `items` and `total` (payments, number, issue date,
every other entry and the counter are untouched); regeneration without
new items never mutates the ledger, and fails with `NoStoredItems` when
the stored items list is empty. -/
theorem C6_regenerate_frame :
    (∀ (clients : String → Option Client) (cat : String → Option Item)
        (pf : String → Option Rat) (tax_rate : Rat) (s : State) (n : String)
        (items : List String) (s' : State),
        regenerate_invoice clients cat pf tax_rate s n (some items) = Except.ok s' →
        s'.counter = s.counter ∧
        ∃ e ls l1 l2, find_entry s.history n = some e ∧
          build_line_items cat pf items = Except.ok ls ∧
          s.history = l1 ++ e :: l2 ∧ (∀ x ∈ l1, x.number ≠ n) ∧
          s'.history =
            l1 ++ { e with items := items, total := compute_total ls tax_rate } :: l2) ∧
    (∀ (clients : String → Option Client) (cat : String → Option Item)
        (pf : String → Option Rat) (tax_rate : Rat) (s : State) (n : String)
        (s' : State),
        regenerate_invoice clients cat pf tax_rate s n none = Except.ok s' →
        s' = s) ∧
    (∀ (clients : String → Option Client) (cat : String → Option Item)
        (pf : String → Option Rat) (tax_rate : Rat) (s : State) (n : String)
        (e : HistoryEntry),
        find_entry s.history n = some e → e.items = [] →
        regenerate_invoice clients cat pf tax_rate s n none =
          Except.error (InvoiceError.NoStoredItems n)) := by
  refine ⟨?_, regenerate_invoice_none_ok, regenerate_invoice_no_stored⟩
  intro clients cat pf tax_rate s n items s' h
  obtain ⟨e, ls, hfind, hb, rfl⟩ :=
    regenerate_invoice_some_ok clients cat pf tax_rate s n items s' h
  obtain ⟨l1, l2, hl, hl1, -, hupd⟩ := find_entry_eq_some _ _ _ hfind
  exact ⟨rfl, e, ls, l1, l2, hfind, hb, hl, hl1, hupd _⟩

/-- Evaluation of `parse_item_input` on the second fixture token. -/
theorem parse_item_input_ex2 :
    parse_item_input exParse "consulting:2" = Except.ok ("consulting", 2) := by
  unfold parse_item_input
  rw [show (split_colon "consulting:2".data).map String.mk = ["consulting", "2"] from by decide]
  dsimp only
  rw [show exParse "2" = some 2 from by decide]
  norm_num

/-- Evaluation of `build_line_items` on the second fixture token list. -/
theorem build_line_items_ex2 :
    build_line_items exCatalog exParse ["consulting:2"] =
      Except.ok [{ description := "Technical Consulting", quantity := 2,
                   unit := "hour", rate := 50, amount := 100 }] := by
  unfold build_line_items
  rw [parse_item_input_ex2]
  unfold build_line_items
  norm_num [bind, Except.bind, exCatalog]

/-- The one-entry ledger after editing the invoice down to two hours. -/
def exStateE : State :=
  { exStateP with history :=
      [{ mk_entry 1000 [] with items := ["consulting:2"], total := 100 }] }

/-- Evaluation of a whole `regenerate_invoice` run with new items. -/
theorem regenerate_invoice_some_ex :
    regenerate_invoice exClients exCatalog exParse 0 exStateP "INV-2026-0001"
      (some ["consulting:2"]) = Except.ok exStateE := by
  unfold regenerate_invoice
  rw [find_entry_exStateP]
  dsimp only [bind, Except.bind]
  rw [show (mk_entry 1000 []).client = "example-client" from rfl]
  rw [show exClients "example-client" = some { name := "Example Client Inc." } from rfl]
  dsimp only [bind, Except.bind]
  rw [build_line_items_ex2]
  dsimp only [bind, Except.bind]
  norm_num [compute_total, exStateE, exStateP, update_entry, mk_entry]

/-- Evaluation of a whole `regenerate_invoice` run without new items:
the ledger is returned unchanged. -/
theorem regenerate_invoice_none_ex :
    regenerate_invoice exClients exCatalog exParse 0 exStateP "INV-2026-0001"
      none = Except.ok exStateP := by
  unfold regenerate_invoice
  rw [find_entry_exStateP]
  simp [bind, Except.bind, mk_entry, exClients, build_line_items_ex]

/-- A legacy entry lacking stored items, in a one-entry ledger. -/
def exStateN : State :=
  { counter := { last_number := 1, last_year := 2026 }
    history := [{ mk_entry 1000 [] with items := [] }] }

/-- Witness for C6: the successful edit run with its frame, the no-op
regeneration, and the `NoStoredItems` failure on a legacy entry. -/
theorem C6_regenerate_frame_witness :
    regenerate_invoice exClients exCatalog exParse 0 exStateP "INV-2026-0001"
      (some ["consulting:2"]) = Except.ok exStateE ∧
    exStateE.counter = exStateP.counter ∧
    exStateP = exStateP ∧
    regenerate_invoice exClients exCatalog exParse 0 exStateN "INV-2026-0001"
      none = Except.error (InvoiceError.NoStoredItems "INV-2026-0001") :=
  ⟨regenerate_invoice_some_ex,
   (C6_regenerate_frame.1 exClients exCatalog exParse 0 exStateP "INV-2026-0001"
     ["consulting:2"] exStateE regenerate_invoice_some_ex).1,
   C6_regenerate_frame.2.1 exClients exCatalog exParse 0 exStateP "INV-2026-0001"
     exStateP regenerate_invoice_none_ex,
   C6_regenerate_frame.2.2 exClients exCatalog exParse 0 exStateN "INV-2026-0001"
     { mk_entry 1000 [] with items := [] }
     (by simp [exStateN, find_entry, mk_entry]) rfl⟩

/-- A decomposed history with a clean prefix finds exactly the marked
entry. -/
theorem find_entry_decomp_eq (l1 l2 : List HistoryEntry) (x : HistoryEntry)
    (n : String) (hl1 : ∀ y ∈ l1, y.number ≠ n) (hx : x.number = n) :
    find_entry (l1 ++ x :: l2) n = some x := by
  induction l1 with
  | nil => simp [find_entry, hx]
  | cons a rest ih =>
      have ha : a.number ≠ n := hl1 a (by simp)
      simp only [List.cons_append, find_entry, ha, if_neg ha]
      exact ih (fun y hy => hl1 y (by simp [hy]))

/-- The catalog whose single rate produces a total with more than two
fractional digits. -/
def c9Catalog : String → Option Item := fun id =>
  if id = "consulting" then
    some { description := "Technical Consulting", rate := 1 / 8, unit := "hour" }
  else none

/-- Evaluation of `build_line_items` against the eighth-rate catalog. -/
theorem build_line_items_c9 :
    build_line_items c9Catalog exParse ["consulting:1"] =
      Except.ok [{ description := "Technical Consulting", quantity := 1,
                   unit := "hour", rate := 1 / 8, amount := 1 / 8 }] := by
  unfold build_line_items
  rw [parse_item_input_ex]
  unfold build_line_items
  norm_num [bind, Except.bind, c9Catalog]

/-- The ledger produced by generating against the eighth-rate catalog. -/
def c9State1 : State :=
  { counter := { last_number := 1, last_year := 2026 }
    history := [{ number := "INV-2026-0001"
                  client := "example-client"
                  date := 20
                  total := 1 / 8
                  file := "INV-2026-0001.pdf"
                  payments := []
                  items := ["consulting:1"] }] }

/-- Evaluation of the eighth-rate `generate_invoice` run. -/
theorem generate_invoice_c9 :
    generate_invoice exClients c9Catalog exParse 0 "INV-\x7byear\x7d-\x7bseq:04\x7d"
      2026 20 { counter := { last_number := 0, last_year := 2026 }, history := [] }
      "example-client" ["consulting:1"] = Except.ok c9State1 := by
  unfold generate_invoice c9State1
  rw [show exClients "example-client" = some { name := "Example Client Inc." } from rfl]
  rw [build_line_items_c9]
  dsimp only [bind, Except.bind]
  rw [show next_seq { last_number := 0, last_year := 2026 } 2026 = 1 from by
    simp [next_seq]]
  rw [show format_invoice_number "INV-\x7byear\x7d-\x7bseq:04\x7d" 2026 1 = "INV-2026-0001"
    from by decide]
  norm_num [compute_total]
  decide

/-- Counterexample to claim C9: a successful generation whose computed
sum of line amounts plus tax is 0.125 stores the total 0.125 as-is,
while its half-up rounding to two fractional digits is 0.13; and the
list display then re-rounds the stored total to a whole unit. -/
theorem C9_counterexample :
    generate_invoice exClients c9Catalog exParse 0 "INV-\x7byear\x7d-\x7bseq:04\x7d"
      2026 20 { counter := { last_number := 0, last_year := 2026 }, history := [] }
      "example-client" ["consulting:1"] = Except.ok c9State1 ∧
    (c9State1.history.map (fun e => e.total)) = [1 / 8] ∧
    round_to_cents_spec (1 / 8) = 13 / 100 ∧
    (1 / 8 : Rat) ≠ 13 / 100 ∧
    format_whole_money (1 / 8) "$" = "$     0" := by
  refine ⟨generate_invoice_c9, by simp [c9State1], ?_, by norm_num, ?_⟩
  · norm_num [round_to_cents_spec]
  · have h : rust_round (1 / 8) = 0 := by norm_num [rust_round]
    simp only [format_whole_money, h]
    decide

/-- Amended claim C9: the totals stored by generate and edit/regenerate
equal the computed `subtotal + subtotal * tax_rate` exactly, with no
rounding applied at computation time; rounding happens only at display
time, where `format_whole_money` re-rounds the stored total to the
nearest whole currency unit. -/
theorem C9_total_unrounded :
    (∀ (clients : String → Option Client) (cat : String → Option Item)
        (pf : String → Option Rat) (tax_rate : Rat) (number_format : String)
        (current_year : Nat) (today : NaiveDate) (s : State)
        (client_id : String) (items_input : List String) (s' : State)
        (ls : List InvoiceLineItem),
        build_line_items cat pf items_input = Except.ok ls →
        generate_invoice clients cat pf tax_rate number_format current_year
          today s client_id items_input = Except.ok s' →
        ∃ e, s'.history.getLast? = some e ∧
          e.total = (ls.map (fun i => i.amount)).sum +
            (ls.map (fun i => i.amount)).sum * tax_rate) ∧
    (∀ (clients : String → Option Client) (cat : String → Option Item)
        (pf : String → Option Rat) (tax_rate : Rat) (s : State) (n : String)
        (items : List String) (s' : State) (ls : List InvoiceLineItem),
        build_line_items cat pf items = Except.ok ls →
        regenerate_invoice clients cat pf tax_rate s n (some items) = Except.ok s' →
        ∃ e, find_entry s'.history n = some e ∧
          e.total = (ls.map (fun i => i.amount)).sum +
            (ls.map (fun i => i.amount)).sum * tax_rate) ∧
    format_whole_money (1 / 8) "$" = "$     0" ∧
    format_whole_money (251 / 2) "$" = "$   126" := by
  refine ⟨?_, ?_, ?_, ?_⟩
  · intro clients cat pf tax_rate number_format current_year today s client_id
      items_input s' ls hb h
    obtain ⟨c, ls', hcl, hb', rfl⟩ := generate_invoice_ok clients cat pf tax_rate
      number_format current_year today s client_id items_input s' h
    rw [hb] at hb'
    obtain rfl : ls = ls' := by simpa using hb'
    refine ⟨_, List.getLast?_concat _, ?_⟩
    simp [compute_total]
  · intro clients cat pf tax_rate s n items s' ls hb h
    obtain ⟨e, ls', hfind, hb', rfl⟩ :=
      regenerate_invoice_some_ok clients cat pf tax_rate s n items s' h
    rw [hb] at hb'
    obtain rfl : ls = ls' := by simpa using hb'
    obtain ⟨l1, l2, hl, hl1, hen, hupd⟩ := find_entry_eq_some _ _ _ hfind
    refine ⟨{ e with items := items, total := compute_total ls tax_rate }, ?_, ?_⟩
    · rw [hupd]
      exact find_entry_decomp_eq l1 l2 _ n hl1 (by simpa using hen)
    · simp [compute_total]
  · have h : rust_round (1 / 8) = 0 := by norm_num [rust_round]
    simp only [format_whole_money, h]
    decide
  · have h : rust_round (251 / 2) = 126 := by norm_num [rust_round]
    simp only [format_whole_money, h]
    decide

/-- Witness for C9 (amended): the fixture generation stores exactly
`50 + 50 * 0`, and the fixture edit stores exactly `100 + 100 * 0`. -/
theorem C9_total_unrounded_witness :
    (exState1.history.getLast?).map (fun e => e.total) = some 50 ∧
    (find_entry exStateE.history "INV-2026-0001").map (fun e => e.total) = some 100 := by
  constructor
  · obtain ⟨e, hget, htot⟩ := C9_total_unrounded.1 exClients exCatalog exParse 0
      "INV-\x7byear\x7d-\x7bseq:04\x7d" 2026 20 exState0 "example-client"
      ["consulting:1"] exState1 _ build_line_items_ex generate_invoice_ex
    rw [hget, Option.map_some', htot]
    norm_num
  · obtain ⟨e, hfind, htot⟩ := C9_total_unrounded.2.1 exClients exCatalog exParse 0
      exStateP "INV-2026-0001" ["consulting:2"] exStateE _ build_line_items_ex2
      regenerate_invoice_some_ex
    rw [hfind, Option.map_some', htot]
    norm_num

/-- The ledger after the fixture 400 payment. -/
def exStateAdd : State :=
  { exStateP with history :=
      [{ mk_entry 1000 [] with payments := [{ amount := 400, date := 15 }] }] }

/-- Evaluation of a successful `cmd_add_payment` run. -/
theorem cmd_add_payment_ex :
    cmd_add_payment exStateP "INV-2026-0001" 400 15 = Except.ok exStateAdd := by
  unfold cmd_add_payment
  rw [if_neg (by norm_num : ¬ (400 : Rat) ≤ 0)]
  rw [find_entry_exStateP]
  dsimp only
  rw [if_neg (by
    norm_num [HistoryEntry.outstanding, HistoryEntry.paid_amount, mk_entry])]
  simp [update_entry, exStateP, exStateAdd, mk_entry]

/-- The ledger after removing the last fixture payment. -/
def exStateRem : State :=
  { exStateQ with history := [mk_entry 1000 [{ amount := 300, date := 15 }]] }

/-- Evaluation of a successful default `cmd_remove_payment` run. -/
theorem cmd_remove_payment_ex :
    cmd_remove_payment exStateQ "INV-2026-0001" none = Except.ok exStateRem := by
  unfold cmd_remove_payment
  rw [find_entry_exStateQ]
  dsimp only
  rw [if_neg (by simp [mk_entry])]
  simp [update_entry, exStateQ, exStateRem, mk_entry]

/-- The fully-paid one-entry ledger used by the C1 counterexample. -/
def c1StateA : State :=
  { counter := { last_number := 1, last_year := 2026 }
    history := [mk_entry 100 [{ amount := 100, date := 15 }]] }

/-- The same ledger after editing the invoice down to one hour: the
total drops to 50 while the recorded 100 payment stays. -/
def c1StateA' : State :=
  { c1StateA with history :=
      [{ mk_entry 100 [{ amount := 100, date := 15 }] with
          items := ["consulting:1"], total := 50 }] }

/-- Evaluation of the invariant-breaking `regenerate_invoice` run. -/
theorem regenerate_invoice_c1 :
    regenerate_invoice exClients exCatalog exParse 0 c1StateA "INV-2026-0001"
      (some ["consulting:1"]) = Except.ok c1StateA' := by
  unfold regenerate_invoice
  rw [show find_entry c1StateA.history "INV-2026-0001" =
      some (mk_entry 100 [{ amount := 100, date := 15 }]) from by
    simp [c1StateA, find_entry, mk_entry]]
  simp [bind, Except.bind, mk_entry, exClients, build_line_items_ex,
    c1StateA, c1StateA', update_entry, compute_total]

/-- The one-entry ledger after the epsilon-abusing payment: the guard
accepts `1000 + 1/1024` because the slack is `1/1000`. -/
def c1StateB' : State :=
  { exStateP with history :=
      [{ mk_entry 1000 [] with
          payments := [{ amount := 1000 + 1 / 1024, date := 15 }] }] }

/-- Evaluation of the epsilon-abusing `cmd_add_payment` run. -/
theorem cmd_add_payment_c1 :
    cmd_add_payment exStateP "INV-2026-0001" (1000 + 1 / 1024) 15 =
      Except.ok c1StateB' := by
  unfold cmd_add_payment
  rw [if_neg (by norm_num : ¬ (1000 + 1 / 1024 : Rat) ≤ 0)]
  rw [find_entry_exStateP]
  dsimp only
  rw [if_neg (by
    norm_num [HistoryEntry.outstanding, HistoryEntry.paid_amount, mk_entry])]
  simp [update_entry, exStateP, c1StateB', mk_entry]

/-- Counterexample to claim C1: starting from ledgers satisfying
`sum(payments) <= total` for every entry, (a) a successful
edit/regenerate lowers a fully-paid invoice's total below its recorded
payments, and (b) a successful add-payment of `outstanding + 1/1024`
passes the `+ 0.001` guard and pushes the payments above the total — so
the strict invariant is not preserved by every succeeding operation. -/
theorem C1_counterexample :
    (ledger_le_total c1StateA ∧
     regenerate_invoice exClients exCatalog exParse 0 c1StateA "INV-2026-0001"
       (some ["consulting:1"]) = Except.ok c1StateA' ∧
     ¬ ledger_le_total c1StateA') ∧
    (ledger_le_total exStateP ∧
     cmd_add_payment exStateP "INV-2026-0001" (1000 + 1 / 1024) 15 =
       Except.ok c1StateB' ∧
     ¬ ledger_le_total c1StateB') := by
  refine ⟨⟨?_, regenerate_invoice_c1, ?_⟩, ⟨?_, cmd_add_payment_c1, ?_⟩⟩
  · intro e he
    simp only [c1StateA, List.mem_singleton] at he
    subst he
    norm_num [HistoryEntry.paid_amount, mk_entry]
  · intro h
    have := h { mk_entry 100 [{ amount := 100, date := 15 }] with
      items := ["consulting:1"], total := 50 } (by simp [c1StateA'])
    norm_num [HistoryEntry.paid_amount, mk_entry] at this
  · intro e he
    simp only [exStateP, List.mem_singleton] at he
    subst he
    norm_num [HistoryEntry.paid_amount, mk_entry]
  · intro h
    have := h { mk_entry 1000 [] with
      payments := [{ amount := 1000 + 1 / 1024, date := 15 }] } (by simp [c1StateB'])
    norm_num [HistoryEntry.paid_amount, mk_entry] at this

/-- Amended claim C1: for every ledger in which each entry's payments
exceed its total by at most the guard's 0.001 slack and every recorded
payment is positive, a succeeding add-payment or remove-payment yields a
ledger with the same property, and so does generate whenever the catalog
rates and the tax rate are nonnegative; overpayment beyond
`outstanding + 0.001` is rejected with `OverPayment`, never clamped.
(Edit/regenerate is excluded: it can lower a total below the recorded
payments, as the counterexample shows.) -/
theorem C1_invariant_preservation :
    (∀ (s : State) (n : String) (amt : Rat) (d : NaiveDate) (s' : State),
        ledger_sane s → cmd_add_payment s n amt d = Except.ok s' →
        ledger_sane s') ∧
    (∀ (s : State) (n : String) (idx : Option Nat) (s' : State),
        ledger_sane s → cmd_remove_payment s n idx = Except.ok s' →
        ledger_sane s') ∧
    (∀ (clients : String → Option Client) (cat : String → Option Item)
        (pf : String → Option Rat) (tax_rate : Rat) (number_format : String)
        (current_year : Nat) (today : NaiveDate) (s : State)
        (client_id : String) (items_input : List String) (s' : State),
        (∀ id it, cat id = some it → 0 ≤ it.rate) → 0 ≤ tax_rate →
        ledger_sane s →
        generate_invoice clients cat pf tax_rate number_format current_year
          today s client_id items_input = Except.ok s' →
        ledger_sane s') ∧
    (∀ (s : State) (n : String) (amt : Rat) (d : NaiveDate) (e : HistoryEntry),
        0 < amt → find_entry s.history n = some e →
        e.outstanding + 1 / 1000 < amt →
        cmd_add_payment s n amt d =
          Except.error (InvoiceError.OverPayment n e.outstanding)) :=
  ⟨add_payment_preserves_sane,
   remove_payment_preserves_sane,
   generate_preserves_sane,
   fun s n amt d e hpos hfind hover =>
     add_payment_overpay_err s n amt d e hfind hover hpos⟩

/-- Witness for the amended C1: the fixture add-payment, remove-payment
and generation each yield a sane ledger, and the fixture overpayment is
rejected carrying the outstanding balance. -/
theorem C1_invariant_preservation_witness :
    ledger_sane exStateAdd ∧ ledger_sane exStateRem ∧ ledger_sane exState1 ∧
    cmd_add_payment exStateP "INV-2026-0001" 1500 15 =
      Except.error (InvoiceError.OverPayment "INV-2026-0001" 1000) := by
  have hsaneP : ledger_sane exStateP := by
    intro e he
    simp only [exStateP, List.mem_singleton] at he
    subst he
    constructor
    · norm_num [HistoryEntry.paid_amount, mk_entry]
    · intro p hp
      simp [mk_entry] at hp
  have hsaneQ : ledger_sane exStateQ := by
    intro e he
    simp only [exStateQ, List.mem_singleton] at he
    subst he
    constructor
    · norm_num [HistoryEntry.paid_amount, mk_entry]
    · intro p hp
      simp [mk_entry] at hp
      rcases hp with rfl | rfl <;> norm_num
  have hsane0 : ledger_sane exState0 := by
    intro e he
    simp [exState0] at he
  have hout : (mk_entry 1000 []).outstanding = 1000 := by
    norm_num [HistoryEntry.outstanding, HistoryEntry.paid_amount, mk_entry]
  refine ⟨C1_invariant_preservation.1 exStateP "INV-2026-0001" 400 15 exStateAdd
      hsaneP cmd_add_payment_ex,
    C1_invariant_preservation.2.1 exStateQ "INV-2026-0001" none exStateRem
      hsaneQ cmd_remove_payment_ex,
    C1_invariant_preservation.2.2.1 exClients exCatalog exParse 0
      "INV-\x7byear\x7d-\x7bseq:04\x7d" 2026 20 exState0 "example-client"
      ["consulting:1"] exState1 ?_ le_rfl hsane0 generate_invoice_ex, ?_⟩
  · intro id it hit
    by_cases hid : id = "consulting"
    · subst hid
      simp only [exCatalog, if_true, ite_true, Option.some.injEq] at hit
      rw [← hit]
      norm_num
    · simp [exCatalog, hid] at hit
  · have h := C1_invariant_preservation.2.2.2 exStateP "INV-2026-0001" 1500 15
      (mk_entry 1000 []) (by norm_num) find_entry_exStateP (by rw [hout]; norm_num)
    rwa [hout] at h

/-- Witness for C10: the synthesized zero payment indeed fails the
`amount > 0` constraint. -/
theorem C10_zero_total_legacy_unpaid_witness :
    ¬ (0 : Rat) < ({ amount := 0, date := 10 } : Payment).amount :=
  C10_zero_total_legacy_unpaid.2.1 { amount := 0, date := 10 }
    (by rw [C10_zero_total_legacy_unpaid.1]; simp)
